import Mathlib

/-!
Verification of the gophertunnel client core.

A shallow embedding of the resource-pack download queue
(`resourcePackQueue` in the `minecraft` package) and of the dial
procedure (`Dialer.Dial` in `dial.go`), together with theorems settling
the specification's claims about them.

Go maps are modelled as association lists with map-style insertion
(replace the binding when the key is present, append otherwise); Go map
iteration in `NextPack` picks an arbitrary element, modelled here as
picking the head of the association list.  Machine integers in the
source (`int32`, `int64`) hold only non-negative values on the paths
modelled, so they are embedded as `Nat`.
-/

namespace Gophertunnel

/-- A resource pack, as used by the queue: its UUID, its version string,
its content length (`Len()`) and its checksum (`Checksum()`, converted
to a string in the source). The pack's contents themselves are not
needed by any claim. -/
structure Pack where
  uuid : String
  version : String
  len : Nat
  checksum : String
deriving DecidableEq, Repr

/-- Modelled from the spec: the negotiated per-chunk size constant
`packChunkSize`; its definition is not among the given sources and the
spec fixes no concrete value, only that it is a positive chunk size. -/
def packChunkSize : Nat := 131072

/-- Modelled from the spec: `resource.Pack.DataChunkCount`, described as
the "chunk count (ceiling of size/chunk-size)"; its source file is not
among the given sources. -/
def Pack.DataChunkCount (p : Pack) (chunkSize : Nat) : Nat :=
  (p.len + chunkSize - 1) / chunkSize

/-- The `packet.ResourcePackDataInfo` packet, with the fields assigned
by `resourcePackQueue.NextPack`. -/
structure ResourcePackDataInfo where
  UUID : String
  DataChunkSize : Nat
  ChunkCount : Nat
  Size : Nat
  Hash : String
deriving DecidableEq, Repr

/-- The `resourcePackQueue` struct. `packs` is the offered catalog;
`packsToDownload` is the Go map from pack UUID to pack, modelled as an
association list; `currentPack` and `currentOffset` track the single
pack currently being sent. The chunk-reassembly fields
(`downloadingPacks`, `awaitingPacks`, `packAmount`) play no role in any
claim and are omitted. -/
structure ResourcePackQueue where
  packs : List Pack
  packsToDownload : List (String × Pack)
  currentPack : Option Pack
  currentOffset : Nat
deriving DecidableEq, Repr

/-- Go map assignment `m[k] = p`: replace the binding if the key is
present, append it otherwise. -/
def mapInsert (m : List (String × Pack)) (k : String) (p : Pack) :
    List (String × Pack) :=
  match m with
  | [] => [(k, p)]
  | (k₀, p₀) :: rest =>
      if k₀ = k then (k, p) :: rest else (k₀, p₀) :: mapInsert rest k p

/-- Go `delete(m, k)`: remove the binding of `k` (the first one, which
is the only one since Go map keys are unique). -/
def mapErase (m : List (String × Pack)) (k : String) :
    List (String × Pack) :=
  match m with
  | [] => []
  | (k₀, p₀) :: rest =>
      if k₀ = k then rest else (k₀, p₀) :: mapErase rest k

/-- The inner loop of `Request`: find the first offered pack whose
`UUID() + "_" + Version()` composite equals the requested identifier. -/
def findPack (packs : List Pack) (id : String) : Option Pack :=
  packs.find? (fun pack => pack.uuid ++ "_" ++ pack.version == id)

/-- The outer loop of `Request`, acting on the `packsToDownload` map:
for each identifier in order, resolve it and insert the resolved pack
keyed by its UUID, or stop with the error the source formats when the
identifier resolves to no offered pack. Returns the error (if any)
together with the map as left behind by the loop. -/
def requestLoop (packs : List Pack) (ids : List String)
    (m : List (String × Pack)) : Option String × List (String × Pack) :=
  match ids with
  | [] => (none, m)
  | id :: rest =>
      match findPack packs id with
      | some pack => requestLoop packs rest (mapInsert m pack.uuid pack)
      | none => (some ("could not find resource pack " ++ id), m)

/-- `resourcePackQueue.Request`: replace `packsToDownload` with a fresh
empty map, then run the resolution loop. Returns the error result
together with the queue state after the call (the source mutates the
receiver in place, so the state after an early error return is the
partially filled map). -/
def Request (queue : ResourcePackQueue) (packs : List String) :
    Option String × ResourcePackQueue :=
  let r := requestLoop queue.packs packs []
  (r.1, { queue with packsToDownload := r.2 })

/-- `resourcePackQueue.NextPack`: pick an element of the
`packsToDownload` map (the head, standing for Go's arbitrary iteration
order), delete it from the map, make it current at offset 0, and return
the data-info packet with `ok = true`; with an empty map, return
`(none, false)` and leave the queue as it is. -/
def NextPack (queue : ResourcePackQueue) :
    Option ResourcePackDataInfo × Bool × ResourcePackQueue :=
  match queue.packsToDownload with
  | [] => (none, false, queue)
  | (index, pack) :: _ =>
      (some { UUID := pack.uuid
              DataChunkSize := packChunkSize
              ChunkCount := pack.DataChunkCount packChunkSize
              Size := pack.len
              Hash := pack.checksum },
       true,
       { queue with
           packsToDownload := mapErase queue.packsToDownload index
           currentPack := some pack
           currentOffset := 0 })

/-- `resourcePackQueue.AllDownloaded`: true iff the `packsToDownload`
map is empty. -/
def AllDownloaded (queue : ResourcePackQueue) : Bool :=
  queue.packsToDownload.length == 0

/-! The dial procedure (`dial.go`).

`Dialer.Dial` interacts with external collaborators (transport,
token-exchange endpoints, the connection's write path) and with the
connection's one-shot signals. These are modelled as an environment of
oracle results, and the source's sequential control flow is mirrored
directly; the order in which the source performs its steps is recorded
as a trace of `DialEvent`s so that ordering claims can be stated. -/

/-- `protocol.CurrentVersion` (the `protocol` package constants in the
given sources): the game version sent in the default client data. -/
def CurrentVersion : String := "1.12.0"

/-- Modelled from the spec: the `device.Win10` device-OS constant used
by `defaultClientData`; the `device` package is not among the given
sources and the constant's numeric value is irrelevant to every claim. -/
def Win10 : Nat := 7

/-- The `login.ClientData` bundle, restricted to the fields
`defaultClientData` (dial.go) assigns; the struct's full definition
lives outside the given sources, and the dial procedure only constructs
it, compares the whole bundle against its zero value and installs it in
the connection, so the remaining fields stay at their zero values and
are omitted. -/
structure ClientData where
  ClientRandomID : Nat
  DeviceOS : Nat
  GameVersion : String
  DeviceID : String
  LanguageCode : String
  ThirdPartyName : String
  SelfSignedID : String
  SkinGeometryName : String
  ServerAddress : String
  SkinID : String
  SkinData : String
deriving DecidableEq, Repr

/-- The zero value `login.ClientData{}` against which `dialer.ClientData`
is compared. -/
def emptyClientData : ClientData :=
  ⟨0, 0, "", "", "", "", "", "", "", "", ""⟩

/-- The process-wide entropy and external encoding that
`defaultClientData` consumes: the `rand2.Int63()` draw (after the
process-wide `rand2.Seed` call), the three `uuid.NewRandom()` draws in
the order the struct literal evaluates them (DeviceID, SelfSignedID,
SkinID), and the result of the external
`base64.StdEncoding.EncodeToString` applied to 32*64*4 zero bytes. -/
structure ClientDataEntropy where
  int63 : Nat
  deviceUUID : String
  selfSignedUUID : String
  skinUUID : String
  zeroSkinBase64 : String
deriving DecidableEq, Repr

/-- `defaultClientData` (dial.go): a valid, mostly filled-out
`ClientData` built from the connection address, with the random draws
and the base64-encoded blank skin supplied by the entropy oracle. -/
def defaultClientData (address : String) (entropy : ClientDataEntropy) :
    ClientData :=
  { ClientRandomID := entropy.int63
    DeviceOS := Win10
    GameVersion := CurrentVersion
    DeviceID := entropy.deviceUUID
    LanguageCode := "en_UK"
    ThirdPartyName := "Steve"
    SelfSignedID := entropy.selfSignedUUID
    SkinGeometryName := "geometry.humanoid"
    ServerAddress := address
    SkinID := entropy.skinUUID
    SkinData := entropy.zeroSkinBase64 }

/-- Modelled from the spec: the two packet IDs registered as permitted
to arrive before full handshake completion
(`packet.IDServerToClientHandshake` and `packet.IDPlayStatus`); their
numeric values are not among the given sources and are irrelevant to
every claim. -/
def idServerToClientHandshake : Nat := 3

/-- Modelled from the spec: see `idServerToClientHandshake`. -/
def idPlayStatus : Nat := 2

/-- The slice of the `Conn` state that `Dialer.Dial` itself
establishes: the fresh session key, the client metadata in force and
the handshake-time allow-list of expected packet IDs. -/
structure Conn where
  key : Nat
  clientData : ClientData
  expectedIDs : List Nat
deriving DecidableEq, Repr

/-- Which of the connection's two one-shot signals fires first in the
final `select` of `Dialer.Dial`. -/
inductive DialSignal where
  | connected
  | closed
deriving DecidableEq, Repr

/-- The steps `Dialer.Dial` performs, in the order it performs them. -/
inductive DialEvent where
  | transportDial
  | generateKey
  | buildAuthChain
  | constructConn
  | startListenConn
  | writeLoginPacket
  | awaitSignal
deriving DecidableEq, Repr

/-- The three external token-exchange endpoints used by `authChain`:
`auth.RequestLiveToken`, `auth.RequestXSTSToken` and
`auth.RequestMinecraftChain`. -/
structure AuthEnv where
  requestLiveToken : String → String → Except String String
  requestXSTSToken : String → Except String String
  requestMinecraftChain : String → Nat → Except String String

/-- `authChain` (dial.go): chain the three token exchanges, wrapping
each stage's failure with the message the source formats for it. -/
def authChain (env : AuthEnv) (email password : String) (key : Nat) :
    Except String String :=
  match env.requestLiveToken email password with
  | .error err => .error ("error obtaining Live token: " ++ err)
  | .ok liveToken =>
      match env.requestXSTSToken liveToken with
      | .error err => .error ("error obtaining XSTS token: " ++ err)
      | .ok xsts =>
          match env.requestMinecraftChain xsts key with
          | .error err =>
              .error ("error obtaining Minecraft auth chain: " ++ err)
          | .ok chain => .ok chain

/-- The environment of oracle results a run of `Dialer.Dial` consumes:
the transport dial result, the freshly generated session key, the
token-exchange endpoints, the result of writing the login packet, and
which signal fires first in the final `select`. -/
structure DialEnv where
  netDial : Except String Unit
  freshKey : Nat
  auth : AuthEnv
  entropy : ClientDataEntropy
  writeLogin : Option String
  firstSignal : DialSignal

/-- The `Dialer` configuration fields that influence the dial control
flow (`ErrorLog` and `PacketFunc` only configure logging and a
diagnostics callback and are omitted). -/
structure Dialer where
  clientData : ClientData
  email : String
  password : String
deriving DecidableEq, Repr

/-- The tail of `Dialer.Dial` after the credential chain is settled
(dial.go lines 88–116): construct the connection with default or custom
client data and the handshake allow-list, start the background
ingestion task, write the login packet (propagating its error
verbatim), then block on the race between the `connected` and `close`
signals, failing with the "connection timeout" error when `close` fires
first. -/
def dialRest (dialer : Dialer) (address : String) (env : DialEnv)
    (key : Nat) (events : List DialEvent) :
    Except String Conn × List DialEvent :=
  let conn : Conn :=
    { key := key
      clientData :=
        if dialer.clientData ≠ emptyClientData then
          dialer.clientData
        else
          defaultClientData address env.entropy
      expectedIDs := [idServerToClientHandshake, idPlayStatus] }
  let events := events ++ [DialEvent.constructConn, DialEvent.startListenConn]
  match env.writeLogin with
  | some err => (.error err, events ++ [DialEvent.writeLoginPacket])
  | none =>
      match env.firstSignal with
      | .connected =>
          (.ok conn, events ++ [DialEvent.writeLoginPacket, DialEvent.awaitSignal])
      | .closed =>
          (.error "connection timeout",
           events ++ [DialEvent.writeLoginPacket, DialEvent.awaitSignal])

/-- `Dialer.Dial`: dial the transport (propagating its error verbatim),
generate a fresh key, build the credential chain when an email is
configured (aborting with the stage-wrapped error on failure), then run
the remainder of the dial. The second component records the steps
performed, in order. -/
def Dialer.Dial (dialer : Dialer) (address : String) (env : DialEnv) :
    Except String Conn × List DialEvent :=
  match env.netDial with
  | .error err => (.error err, [DialEvent.transportDial])
  | .ok _ =>
      let key := env.freshKey
      if dialer.email = "" then
        dialRest dialer address env key
          [DialEvent.transportDial, DialEvent.generateKey]
      else
        match authChain env.auth dialer.email dialer.password key with
        | .error err =>
            (.error err,
             [DialEvent.transportDial, DialEvent.generateKey,
              DialEvent.buildAuthChain])
        | .ok _ =>
            dialRest dialer address env key
              [DialEvent.transportDial, DialEvent.generateKey,
               DialEvent.buildAuthChain]

/-! Derived characterisations of the resolution loop, used to state and
prove the claims about `Request`. -/

/-- One step of the resolution loop of `Request`, as a fold step:
resolve the identifier and insert the resolved pack keyed by its UUID
(a no-op on an unresolvable identifier; the fold is only ever applied
to resolvable ones). -/
def resolveStep (packs : List Pack) (m : List (String × Pack))
    (id : String) : List (String × Pack) :=
  match findPack packs id with
  | some pack => mapInsert m pack.uuid pack
  | none => m

/-- The identifiers the loop of `Request` processes completely: the
longest prefix of resolvable identifiers. -/
def resolvablePrefix (packs : List Pack) (ids : List String) :
    List String :=
  ids.takeWhile fun id => (findPack packs id).isSome

/-- The map of packs resolved from the processed prefix of the
identifier list, starting from a fresh empty map. -/
def resolvedPrefixMap (packs : List Pack) (ids : List String) :
    List (String × Pack) :=
  (resolvablePrefix packs ids).foldl (resolveStep packs) []

lemma requestLoop_snd (packs : List Pack) (ids : List String) :
    ∀ m, (requestLoop packs ids m).2 =
      (resolvablePrefix packs ids).foldl (resolveStep packs) m := by
  induction ids with
  | nil => intro m; simp [requestLoop, resolvablePrefix]
  | cons id rest ih =>
      intro m
      cases h : findPack packs id with
      | some p =>
          have hstep : (requestLoop packs (id :: rest) m).2 =
              (requestLoop packs rest (mapInsert m p.uuid p)).2 := by
            simp [requestLoop, h]
          rw [hstep, ih]
          simp [resolvablePrefix, List.takeWhile_cons, h, resolveStep]
      | none =>
          simp [requestLoop, h, resolvablePrefix, List.takeWhile_cons]

lemma requestLoop_fst_none (packs : List Pack) (ids : List String) :
    ∀ m, (requestLoop packs ids m).1 = none ↔
      ∀ id ∈ ids, (findPack packs id).isSome := by
  induction ids with
  | nil => intro m; simp [requestLoop]
  | cons id rest ih =>
      intro m
      cases h : findPack packs id with
      | some p => simp [requestLoop, h, ih]
      | none => simp [requestLoop, h]

lemma requestLoop_fst_error (packs : List Pack) (ids : List String) :
    ∀ m, (¬ ∀ id ∈ ids, (findPack packs id).isSome) →
      ∃ bad, bad ∈ ids ∧ findPack packs bad = none ∧
        (requestLoop packs ids m).1 =
          some ("could not find resource pack " ++ bad) := by
  induction ids with
  | nil => intro m h; exact absurd (by simp) h
  | cons id rest ih =>
      intro m h
      cases hf : findPack packs id with
      | some p =>
          have hrest : ¬ ∀ x ∈ rest, (findPack packs x).isSome := by
            intro hall
            exact h (by
              intro x hx
              rcases List.mem_cons.mp hx with rfl | hx
              · simp [hf]
              · exact hall x hx)
          obtain ⟨bad, hmem, hbad, heq⟩ :=
            ih (mapInsert m p.uuid p) hrest
          exact ⟨bad, List.mem_cons_of_mem _ hmem, hbad, by
            simpa [requestLoop, hf] using heq⟩
      | none =>
          exact ⟨id, List.mem_cons_self _ _, hf, by simp [requestLoop, hf]⟩

lemma mem_keys_mapInsert (m : List (String × Pack)) (k : String)
    (p : Pack) (x : String) :
    x ∈ (mapInsert m k p).map Prod.fst ↔
      x = k ∨ x ∈ m.map Prod.fst := by
  induction m with
  | nil => simp [mapInsert]
  | cons kp rest ih =>
      obtain ⟨k₀, p₀⟩ := kp
      by_cases hk : k₀ = k
      · subst hk
        simp [mapInsert]
      · simp [mapInsert, hk, ih]
        tauto

lemma nodup_keys_mapInsert (m : List (String × Pack)) (k : String)
    (p : Pack) (h : (m.map Prod.fst).Nodup) :
    ((mapInsert m k p).map Prod.fst).Nodup := by
  induction m with
  | nil => simp [mapInsert]
  | cons kp rest ih =>
      obtain ⟨k₀, p₀⟩ := kp
      simp only [List.map_cons, List.nodup_cons] at h
      by_cases hk : k₀ = k
      · subst hk
        simpa [mapInsert] using h
      · simp only [mapInsert, hk, if_false, List.map_cons, List.nodup_cons]
        refine ⟨?_, ih h.2⟩
        intro hmem
        rcases (mem_keys_mapInsert rest k p k₀).mp hmem with rfl | hmem₀
        · exact hk rfl
        · exact h.1 hmem₀

lemma mem_mapInsert (m : List (String × Pack)) (k : String) (p : Pack)
    (kp : String × Pack) (h : kp ∈ mapInsert m k p) :
    kp = (k, p) ∨ kp ∈ m := by
  induction m with
  | nil => simpa [mapInsert] using h
  | cons kp₀ rest ih =>
      obtain ⟨k₀, p₀⟩ := kp₀
      by_cases hk : k₀ = k
      · subst hk
        rcases List.mem_cons.mp (by simpa [mapInsert] using h) with rfl | hm
        · exact Or.inl rfl
        · exact Or.inr (List.mem_cons_of_mem _ hm)
      · rcases List.mem_cons.mp (by simpa [mapInsert, hk] using h) with rfl | hm
        · exact Or.inr (List.mem_cons_self _ _)
        · rcases ih hm with h₁ | h₂
          · exact Or.inl h₁
          · exact Or.inr (List.mem_cons_of_mem _ h₂)

lemma requestLoop_keys_nodup (packs : List Pack) (ids : List String) :
    ∀ m, (m.map Prod.fst).Nodup →
      (((requestLoop packs ids m).2).map Prod.fst).Nodup := by
  induction ids with
  | nil => intro m h; simpa [requestLoop] using h
  | cons id rest ih =>
      intro m h
      cases hf : findPack packs id with
      | some p =>
          have : (requestLoop packs (id :: rest) m).2 =
              (requestLoop packs rest (mapInsert m p.uuid p)).2 := by
            simp [requestLoop, hf]
          rw [this]
          exact ih _ (nodup_keys_mapInsert m p.uuid p h)
      | none => simpa [requestLoop, hf] using h

lemma requestLoop_mem (packs : List Pack) (ids : List String) :
    ∀ m kp, kp ∈ (requestLoop packs ids m).2 →
      kp ∈ m ∨ ∃ id ∈ ids,
        findPack packs id = some kp.2 ∧ kp.2.uuid = kp.1 := by
  induction ids with
  | nil => intro m kp h; exact Or.inl (by simpa [requestLoop] using h)
  | cons id rest ih =>
      intro m kp h
      cases hf : findPack packs id with
      | some p =>
          have h₂ : kp ∈ (requestLoop packs rest (mapInsert m p.uuid p)).2 := by
            simpa [requestLoop, hf] using h
          rcases ih _ kp h₂ with hm | ⟨id₀, hid₀, hfind, huuid⟩
          · rcases mem_mapInsert m p.uuid p kp hm with rfl | hm₀
            · exact Or.inr ⟨id, List.mem_cons_self _ _, by simpa using hf, rfl⟩
            · exact Or.inl hm₀
          · exact Or.inr ⟨id₀, List.mem_cons_of_mem _ hid₀, hfind, huuid⟩
      | none =>
          exact Or.inl (by simpa [requestLoop, hf] using h)

lemma requestLoop_keys_mono (packs : List Pack) (ids : List String) :
    ∀ m x, x ∈ m.map Prod.fst →
      x ∈ ((requestLoop packs ids m).2).map Prod.fst := by
  induction ids with
  | nil => intro m x h; simpa [requestLoop] using h
  | cons id rest ih =>
      intro m x h
      cases hf : findPack packs id with
      | some p =>
          have : (requestLoop packs (id :: rest) m).2 =
              (requestLoop packs rest (mapInsert m p.uuid p)).2 := by
            simp [requestLoop, hf]
          rw [this]
          exact ih _ x ((mem_keys_mapInsert m p.uuid p x).mpr (Or.inr h))
      | none => simpa [requestLoop, hf] using h

lemma requestLoop_key_present (packs : List Pack) (ids : List String)
    (hall : ∀ id ∈ ids, (findPack packs id).isSome) :
    ∀ m, ∀ id ∈ ids, ∀ p, findPack packs id = some p →
      p.uuid ∈ ((requestLoop packs ids m).2).map Prod.fst := by
  induction ids with
  | nil => intro m id h; exact absurd h (List.not_mem_nil id)
  | cons id₀ rest ih =>
      intro m id hid p hp
      cases hf : findPack packs id₀ with
      | some p₀ =>
          have hrw : (requestLoop packs (id₀ :: rest) m).2 =
              (requestLoop packs rest (mapInsert m p₀.uuid p₀)).2 := by
            simp [requestLoop, hf]
          rw [hrw]
          have hall₀ : ∀ x ∈ rest, (findPack packs x).isSome := by
            intro x hx
            exact hall x (List.mem_cons_of_mem _ hx)
          rcases List.mem_cons.mp hid with rfl | hmem
          · have hp₀ : p = p₀ := by
              rw [hf] at hp
              exact (Option.some_inj.mp hp).symm
            subst hp₀
            exact requestLoop_keys_mono packs rest _ p.uuid
              ((mem_keys_mapInsert m p.uuid p p.uuid).mpr (Or.inl rfl))
          · exact ih hall₀ _ id hmem p hp
      | none =>
          have := hall id₀ (List.mem_cons_self _ _)
          rw [hf] at this
          exact absurd this (by simp)

lemma dataChunkCount_ceiling (p : Pack) :
    packChunkSize * p.DataChunkCount packChunkSize ≥ p.len ∧
    p.len + packChunkSize > packChunkSize * p.DataChunkCount packChunkSize := by
  have hcs : packChunkSize = 131072 := rfl
  unfold Pack.DataChunkCount
  rw [hcs]
  have h1 := Nat.div_add_mod (p.len + 131072 - 1) 131072
  have h2 : (p.len + 131072 - 1) % 131072 < 131072 :=
    Nat.mod_lt _ (by norm_num)
  omega

/-! Concrete fixtures used by counterexamples and witnesses. -/

/-- A pack with UUID "a" and version "1". -/
def packA1 : Pack := ⟨"a", "1", 5, "ck1"⟩

/-- A pack sharing UUID "a" with `packA1` but with version "2". -/
def packA2 : Pack := ⟨"a", "2", 7, "ck2"⟩

/-- A pack with UUID "b", larger than one chunk. -/
def packB1 : Pack := ⟨"b", "1", 131073, "ck3"⟩

/-- A queue offering three packs, with one pack already enqueued for
download by an earlier request. -/
def queueWithPending : ResourcePackQueue :=
  ⟨[packA1, packA2, packB1], [("b", packB1)], none, 0⟩

/-- A queue offering three packs, with nothing enqueued. -/
def queueFresh : ResourcePackQueue :=
  ⟨[packA1, packA2, packB1], [], none, 0⟩

/-- A queue with exactly one pack enqueued for download. -/
def queueOneRequested : ResourcePackQueue :=
  ⟨[packA1], [("a", packA1)], none, 0⟩

/-- Claim C1, counterexample: requesting the identifiers
["a_1", "zzz"] against a catalog offering "a_1" yields the error naming
"zzz", yet the queue's state differs from before the call — the
previously enqueued pack is gone and the pack resolved from the prefix
is enqueued — refuting the all-or-nothing atomicity the claim states. -/
theorem claim_C1_counterexample :
    (Request queueWithPending ["a_1", "zzz"]).1 =
      some "could not find resource pack zzz" ∧
    (Request queueWithPending ["a_1", "zzz"]).2.packsToDownload ≠
      queueWithPending.packsToDownload := by
  decide

/-- Claim C1, amended: when some identifier does not resolve against
the offered catalog, `Request` returns an error naming an unresolvable
identifier, but the queue's state does change: `packsToDownload` is
replaced by the map of packs resolved from the prefix of identifiers
processed before the failure (discarding whatever was enqueued before);
all other fields are unchanged. -/
theorem claim_C1_amended (queue : ResourcePackQueue) (ids : List String)
    (h : ¬ ∀ id ∈ ids, (findPack queue.packs id).isSome) :
    ∃ bad, bad ∈ ids ∧ findPack queue.packs bad = none ∧
      (Request queue ids).1 =
        some ("could not find resource pack " ++ bad) ∧
      (Request queue ids).2 =
        { queue with packsToDownload := resolvedPrefixMap queue.packs ids } := by
  obtain ⟨bad, hmem, hbad, herr⟩ := requestLoop_fst_error queue.packs ids [] h
  refine ⟨bad, hmem, hbad, herr, ?_⟩
  show { queue with packsToDownload := (requestLoop queue.packs ids []).2 } = _
  rw [requestLoop_snd queue.packs ids []]
  rfl

/-- Claim C1, witness: the amended statement evaluated on the concrete
counterexample queue and identifier list. -/
theorem claim_C1_witness :
    ∃ bad, bad ∈ ["a_1", "zzz"] ∧
      findPack queueWithPending.packs bad = none ∧
      (Request queueWithPending ["a_1", "zzz"]).1 =
        some ("could not find resource pack " ++ bad) ∧
      (Request queueWithPending ["a_1", "zzz"]).2 =
        { queueWithPending with
            packsToDownload :=
              resolvedPrefixMap queueWithPending.packs ["a_1", "zzz"] } :=
  claim_C1_amended queueWithPending ["a_1", "zzz"] (by decide)

/-- Claim C2, counterexample: after `NextPack` moves the only requested
pack out of the requested set to become current (offset 0, its 5 bytes
not yet arrived), `AllDownloaded` already returns `true`, refuting the
claim that it returns `false` while a pack moved to Downloading has not
finished. -/
theorem claim_C2_counterexample :
    AllDownloaded (NextPack queueOneRequested).2.2 = true ∧
    (NextPack queueOneRequested).2.2.currentPack = some packA1 ∧
    (NextPack queueOneRequested).2.2.currentOffset = 0 ∧
    packA1.len ≠ 0 := by
  decide

/-- Claim C2, amended: `AllDownloaded` returns `true` exactly when the
`packsToDownload` set is empty; a pack that `NextPack` has moved out of
that set to become current is no longer counted, so `AllDownloaded`
returns `true` as soon as the last requested pack has been handed to
`NextPack`, even before its bytes arrive. -/
theorem claim_C2_amended (queue : ResourcePackQueue) :
    (AllDownloaded queue = true ↔ queue.packsToDownload = []) ∧
    (∀ k p, queue.packsToDownload = [(k, p)] →
      AllDownloaded (NextPack queue).2.2 = true) := by
  constructor
  · simp [AllDownloaded, List.length_eq_zero]
  · intro k p h
    simp [NextPack, h, AllDownloaded, mapErase]

/-- Claim C2, witness: the amended statement evaluated on the concrete
queue with one requested pack. -/
theorem claim_C2_witness :
    AllDownloaded (NextPack queueOneRequested).2.2 = true :=
  (claim_C2_amended queueOneRequested).2 "a" packA1 rfl

/-- Claim C3, counterexample: with a catalog offering two packs that
share UUID "a" but differ in version, requesting both composite
identifiers succeeds, yet only one entry ends up in the set of packs to
download (the map is keyed by UUID alone), and the pack resolved from
the first identifier appears nowhere — refuting "every requested
identifier becomes downloadable exactly once". -/
theorem claim_C3_counterexample :
    (Request queueFresh ["a_1", "a_2"]).1 = none ∧
    (Request queueFresh ["a_1", "a_2"]).2.packsToDownload.length = 1 ∧
    ¬ ∃ kp ∈ (Request queueFresh ["a_1", "a_2"]).2.packsToDownload,
        kp.2 = packA1 := by
  decide

/-- Claim C3, amended: when every identifier resolves against the
offered catalog, `Request` succeeds; the packs to download are keyed by
UUID alone, so each distinct UUID among the resolved packs appears
exactly once (keys are duplicate-free and the UUID of every resolved
pack is present), every entry is a catalog pack resolved from one of
the requested identifiers, and packs sharing a UUID collapse into a
single entry rather than appearing once each. -/
theorem claim_C3_amended (queue : ResourcePackQueue) (ids : List String)
    (h : ∀ id ∈ ids, (findPack queue.packs id).isSome) :
    (Request queue ids).1 = none ∧
    (((Request queue ids).2.packsToDownload).map Prod.fst).Nodup ∧
    (∀ id ∈ ids, ∀ p, findPack queue.packs id = some p →
      p.uuid ∈ ((Request queue ids).2.packsToDownload).map Prod.fst) ∧
    (∀ kp ∈ (Request queue ids).2.packsToDownload,
      ∃ id ∈ ids, findPack queue.packs id = some kp.2 ∧
        kp.2.uuid = kp.1) := by
  refine ⟨?_, ?_, ?_, ?_⟩
  · exact (requestLoop_fst_none queue.packs ids []).mpr h
  · exact requestLoop_keys_nodup queue.packs ids [] (by simp)
  · intro id hid p hp
    exact requestLoop_key_present queue.packs ids h [] id hid p hp
  · intro kp hkp
    rcases requestLoop_mem queue.packs ids [] kp hkp with hm | hex
    · exact absurd hm (List.not_mem_nil kp)
    · exact hex

/-- Claim C3, witness: the amended statement evaluated on the concrete
catalog with two packs sharing a UUID. -/
theorem claim_C3_witness :
    (Request queueFresh ["a_1", "a_2"]).1 = none ∧
    (((Request queueFresh ["a_1", "a_2"]).2.packsToDownload).map
      Prod.fst).Nodup :=
  ⟨(claim_C3_amended queueFresh ["a_1", "a_2"] (by decide)).1,
   (claim_C3_amended queueFresh ["a_1", "a_2"] (by decide)).2.1⟩

/-- Claim C6: when at least one requested pack remains, `NextPack`
removes exactly one pack from the requested set, makes it current with
byte offset 0, and returns ok = true together with metadata carrying
that pack's identifier (its UUID), the negotiated chunk size, a chunk
count equal to the ceiling of the pack's size divided by the chunk size
(characterised by the two inequalities), the total size and the pack's
checksum; when the requested set is empty, it returns (none, false). -/
theorem claim_C6 (queue : ResourcePackQueue) :
    (queue.packsToDownload = [] → NextPack queue = (none, false, queue)) ∧
    (∀ k p rest, queue.packsToDownload = (k, p) :: rest →
      ∃ info, NextPack queue =
          (some info, true,
           { queue with
               packsToDownload := rest
               currentPack := some p
               currentOffset := 0 }) ∧
        info.UUID = p.uuid ∧
        info.DataChunkSize = packChunkSize ∧
        info.Size = p.len ∧
        info.Hash = p.checksum ∧
        packChunkSize * info.ChunkCount ≥ p.len ∧
        p.len + packChunkSize > packChunkSize * info.ChunkCount) := by
  constructor
  · intro h
    simp [NextPack, h]
  · intro k p rest h
    refine ⟨{ UUID := p.uuid
              DataChunkSize := packChunkSize
              ChunkCount := p.DataChunkCount packChunkSize
              Size := p.len
              Hash := p.checksum },
            ?_, rfl, rfl, rfl, rfl,
            (dataChunkCount_ceiling p).1, (dataChunkCount_ceiling p).2⟩
    simp [NextPack, h, mapErase]

/-- Claim C6, witness: the statement evaluated on the concrete queue
with one requested pack. -/
theorem claim_C6_witness :
    ∃ info, NextPack queueOneRequested =
        (some info, true,
         { queueOneRequested with
             packsToDownload := []
             currentPack := some packA1
             currentOffset := 0 }) ∧
      info.UUID = packA1.uuid ∧
      info.DataChunkSize = packChunkSize ∧
      info.Size = packA1.len ∧
      info.Hash = packA1.checksum ∧
      packChunkSize * info.ChunkCount ≥ packA1.len ∧
      packA1.len + packChunkSize > packChunkSize * info.ChunkCount :=
  (claim_C6 queueOneRequested).2 "a" packA1 [] rfl

/-- Claim C7: an identifier supplied to `Request` resolves against the
offered catalog exactly when it equals, byte for byte, the
concatenation of some offered pack's UUID, an underscore and its
version string; a resolved pack is an offered pack whose composite
equals the identifier. -/
theorem claim_C7 (queue : ResourcePackQueue) (id : String) :
    ((Request queue [id]).1 = none ↔
      ∃ p ∈ queue.packs, p.uuid ++ "_" ++ p.version = id) ∧
    (∀ p, findPack queue.packs id = some p →
      p ∈ queue.packs ∧ p.uuid ++ "_" ++ p.version = id) := by
  constructor
  · have h := requestLoop_fst_none queue.packs [id] []
    have h₂ : (Request queue [id]).1 = none ↔
        (findPack queue.packs id).isSome := by
      simpa using h
    rw [h₂]
    unfold findPack
    rw [List.find?_isSome]
    constructor
    · rintro ⟨p, hp, hbeq⟩
      exact ⟨p, hp, by simpa using hbeq⟩
    · rintro ⟨p, hp, heq⟩
      exact ⟨p, hp, by simpa using heq⟩
  · intro p hp
    refine ⟨List.mem_of_find?_eq_some hp, ?_⟩
    have := List.find?_some hp
    simpa using this

/-- Claim C7, witness: the statement evaluated on the concrete catalog
and the identifier "a_1". -/
theorem claim_C7_witness :
    (Request queueFresh ["a_1"]).1 = none ∧
    packA1 ∈ queueFresh.packs ∧
    packA1.uuid ++ "_" ++ packA1.version = "a_1" :=
  ⟨(claim_C7 queueFresh "a_1").1.mpr ⟨packA1, by decide, by decide⟩,
   (claim_C7 queueFresh "a_1").2 packA1 rfl⟩

/-- Claim C9: every call to `Request` replaces the set of packs to
download with a fresh map built only from the prefix of the identifier
list processed before the call returned (so packs enqueued by an
earlier call are discarded, whether the call succeeds or fails), and
leaves every other field of the queue unchanged. -/
theorem claim_C9 (queue : ResourcePackQueue) (ids : List String) :
    (Request queue ids).2 =
      { queue with packsToDownload := resolvedPrefixMap queue.packs ids } := by
  show { queue with packsToDownload := (requestLoop queue.packs ids []).2 } = _
  rw [requestLoop_snd queue.packs ids []]
  rfl

/-- Claim C10: with an empty requested set, `NextPack` returns
(none, false) and the queue is unchanged — in particular `currentPack`
and `currentOffset` keep their values. -/
theorem claim_C10 (queue : ResourcePackQueue)
    (h : queue.packsToDownload = []) :
    NextPack queue = (none, false, queue) := by
  simp [NextPack, h]

/-- Claim C10, witness: the statement evaluated on a concrete queue
with a current pack and a nonzero offset. -/
theorem claim_C10_witness :
    NextPack ⟨[packA1], [], some packB1, 42⟩ =
      (none, false, ⟨[packA1], [], some packB1, 42⟩) :=
  claim_C10 ⟨[packA1], [], some packB1, 42⟩ rfl

/-- Token-exchange endpoints that all succeed. -/
def authEnvOk : AuthEnv :=
  ⟨fun _ _ => .ok "live", fun _ => .ok "xsts", fun _ _ => .ok "chain"⟩

/-- Token-exchange endpoints whose first stage (the Live token request)
fails. -/
def authEnvLiveFail : AuthEnv :=
  ⟨fun _ _ => .error "boom", fun _ => .ok "xsts", fun _ _ => .ok "chain"⟩

/-- Fixed entropy draws for concrete dial runs. -/
def entropyFixed : ClientDataEntropy := ⟨1, "u1", "u2", "u3", "skin"⟩

/-- A dial environment where everything up to the final select
succeeds and the close signal fires before the connected signal. -/
def envClosed : DialEnv :=
  ⟨.ok (), 7, authEnvOk, entropyFixed, none, .closed⟩

/-- A dial environment where the transport dial succeeds but the Live
token request fails. -/
def envLiveFail : DialEnv :=
  ⟨.ok (), 7, authEnvLiveFail, entropyFixed, none, .connected⟩

/-- A dialer with no credentials configured. -/
def dialerAnon : Dialer := ⟨emptyClientData, "", ""⟩

/-- A dialer with credentials configured. -/
def dialerMail : Dialer := ⟨emptyClientData, "someone at example", "pw"⟩

/-- Claim C4: in a run of `Dialer.Dial` that reaches the final select
(transport dial succeeded, the credential chain either was skipped or
succeeded, and the login write succeeded), `Dial` returns the
"connection timeout" error exactly when the close signal fires before
the connected signal — so it never returns a usable connection in that
case — and a returned connection implies the connected signal fired
first. -/
theorem claim_C4 (dialer : Dialer) (address : String) (env : DialEnv)
    (hnet : env.netDial = .ok ())
    (hauth : dialer.email = "" ∨
      ∃ chain, authChain env.auth dialer.email dialer.password
        env.freshKey = .ok chain)
    (hwrite : env.writeLogin = none) :
    ((dialer.Dial address env).1 = .error "connection timeout" ↔
      env.firstSignal = .closed) ∧
    (∀ conn, (dialer.Dial address env).1 = .ok conn →
      env.firstSignal = .connected) := by
  by_cases hem : dialer.email = ""
  · cases hsig : env.firstSignal <;>
      simp [Dialer.Dial, dialRest, hnet, hem, hwrite, hsig]
  · rcases hauth with h | ⟨chain, hchain⟩
    · exact absurd h hem
    · cases hsig : env.firstSignal <;>
        simp [Dialer.Dial, dialRest, hnet, hem, hchain, hwrite, hsig]

/-- Claim C4, witness: with everything up to the select succeeding and
the close signal firing first, the concrete dial returns the
connection-timeout error. -/
theorem claim_C4_witness :
    (dialerAnon.Dial "addr" envClosed).1 = .error "connection timeout" :=
  (claim_C4 dialerAnon "addr" envClosed rfl (Or.inl rfl) rfl).1.mpr rfl

/-- Claim C5: with a non-empty email, if the chained token exchange
fails (whichever of the three stages fails first), `Dial` returns that
error — wrapped with the message identifying the failing stage — and
aborts before the login packet is written. -/
theorem claim_C5 (dialer : Dialer) (address : String) (env : DialEnv)
    (hemail : dialer.email ≠ "")
    (hnet : env.netDial = .ok ())
    (e : String)
    (hfail : authChain env.auth dialer.email dialer.password
      env.freshKey = .error e) :
    (dialer.Dial address env).1 = .error e ∧
    DialEvent.writeLoginPacket ∉ (dialer.Dial address env).2 ∧
    ∃ msg, e = "error obtaining Live token: " ++ msg ∨
           e = "error obtaining XSTS token: " ++ msg ∨
           e = "error obtaining Minecraft auth chain: " ++ msg := by
  refine ⟨?_, ?_, ?_⟩
  · simp [Dialer.Dial, hnet, hemail, hfail]
  · simp [Dialer.Dial, hnet, hemail, hfail]
  · unfold authChain at hfail
    cases hl : env.auth.requestLiveToken dialer.email dialer.password with
    | error err =>
        rw [hl] at hfail
        simp only [Except.error.injEq] at hfail
        exact ⟨err, Or.inl hfail.symm⟩
    | ok live =>
        rw [hl] at hfail
        dsimp only at hfail
        cases hx : env.auth.requestXSTSToken live with
        | error err =>
            rw [hx] at hfail
            simp only [Except.error.injEq] at hfail
            exact ⟨err, Or.inr (Or.inl hfail.symm)⟩
        | ok xsts =>
            rw [hx] at hfail
            dsimp only at hfail
            cases hc : env.auth.requestMinecraftChain xsts env.freshKey with
            | error err =>
                rw [hc] at hfail
                simp only [Except.error.injEq] at hfail
                exact ⟨err, Or.inr (Or.inr hfail.symm)⟩
            | ok chain =>
                rw [hc] at hfail
                exact absurd hfail (by simp)

/-- Claim C5, witness: with a failing Live token request, the concrete
dial returns the stage-wrapped error and the login packet is never
written. -/
theorem claim_C5_witness :
    (dialerMail.Dial "addr" envLiveFail).1 =
      .error ("error obtaining Live token: " ++ "boom") ∧
    DialEvent.writeLoginPacket ∉ (dialerMail.Dial "addr" envLiveFail).2 :=
  ⟨(claim_C5 dialerMail "addr" envLiveFail (by decide) rfl
      ("error obtaining Live token: " ++ "boom") rfl).1,
   (claim_C5 dialerMail "addr" envLiveFail (by decide) rfl
      ("error obtaining Live token: " ++ "boom") rfl).2.1⟩

/-- Claim C8: in every run of `Dialer.Dial` whose step trace contains
the login-packet write, the background ingestion task is started
strictly before it: the two events occur as a subsequence, in that
order, of the trace. -/
theorem claim_C8 (dialer : Dialer) (address : String) (env : DialEnv)
    (h : DialEvent.writeLoginPacket ∈ (dialer.Dial address env).2) :
    List.Sublist [DialEvent.startListenConn, DialEvent.writeLoginPacket]
      (dialer.Dial address env).2 := by
  cases hnet : env.netDial with
  | error err => simp [Dialer.Dial, hnet] at h
  | ok u =>
      cases u
      by_cases hem : dialer.email = ""
      · cases hw : env.writeLogin with
        | some err =>
            simp only [Dialer.Dial, dialRest, hnet, hem, hw, if_true]
            decide
        | none =>
            cases hsig : env.firstSignal <;>
              · simp only [Dialer.Dial, dialRest, hnet, hem, hw, hsig, if_true]
                decide
      · cases hauth : authChain env.auth dialer.email dialer.password
            env.freshKey with
        | error e =>
            simp [Dialer.Dial, dialRest, hnet, hem, hauth] at h
        | ok chain =>
            cases hw : env.writeLogin with
            | some err =>
                simp only [Dialer.Dial, dialRest, hnet, hem, hauth, hw,
                  if_false]
                decide
            | none =>
                cases hsig : env.firstSignal <;>
                  · simp only [Dialer.Dial, dialRest, hnet, hem, hauth, hw,
                      hsig, if_false]
                    decide

/-- Claim C8, witness: in a concrete successful run, the ingestion
start precedes the login write in the trace. -/
theorem claim_C8_witness :
    List.Sublist [DialEvent.startListenConn, DialEvent.writeLoginPacket]
      (dialerAnon.Dial "addr" envClosed).2 :=
  claim_C8 dialerAnon "addr" envClosed (by decide)

end Gophertunnel
